import Mathlib

/-!
Verification of the AWS CLI datapipeline customization
(`awscli/customizations/datapipeline/__init__.py` plus the pipeline-definition
translator it uses).

The Python code is shallowly embedded: dynamic dictionaries become association
lists, `datetime` instants become seconds since 0001-01-01 in the proleptic
Gregorian calendar (the calendar Python's `datetime` uses), exceptions become
`Except String`, and the two external service calls of `list-runs` are passed
in as function parameters.
-/

namespace Datapipeline

/-! ### Dates and times

Model of the fragment of Python `datetime` used by `QueryArgBuilder`:
an instant is a count of seconds since 0001-01-01T00:00:00 (proleptic
Gregorian), `timedelta(days=4)` is `4 * 86400` seconds, and
`strftime('%Y-%m-%dT%H:%M:%S')` is `strftimeYmdHMS`. -/

/-- Leap-year test of the proleptic Gregorian calendar. -/
def isLeapYear (y : Nat) : Bool :=
  (y % 4 == 0 && y % 100 != 0) || y % 400 == 0

/-- Month lengths, January first. -/
def monthLengths (leap : Bool) : List Nat :=
  [31, if leap then 29 else 28, 31, 30, 31, 30, 31, 31, 30, 31, 30, 31]

/-- From month lengths and a 0-based day of year, the 1-based (month, day). -/
def monthDayFromDoy : List Nat → Nat → Nat × Nat
  | [], doy => (1, doy + 1)
  | m :: ms, doy =>
    if doy < m then (1, doy + 1)
    else
      let p := monthDayFromDoy ms (doy - m)
      (p.1 + 1, p.2)

/-- From a 0-based count of days since 0001-01-01, the (year, month, day). -/
def civilFromDays (n : Nat) : Nat × Nat × Nat :=
  let q400 := n / 146097
  let r400 := n % 146097
  let q100 := min (r400 / 36524) 3
  let r100 := r400 - q100 * 36524
  let q4 := r100 / 1461
  let r4 := r100 % 1461
  let q1 := min (r4 / 365) 3
  let doy := r4 - q1 * 365
  let year := 400 * q400 + 100 * q100 + 4 * q4 + q1 + 1
  let md := monthDayFromDoy (monthLengths (isLeapYear year)) doy
  (year, md.1, md.2)

/-- Left-pad a numeral with zeros to width `w`. -/
def padNum (w n : Nat) : String :=
  let s := toString n
  String.mk (List.replicate (w - s.length) '0') ++ s

/-- Python `t.strftime('%Y-%m-%dT%H:%M:%S')` on an instant `t` given as
seconds since 0001-01-01T00:00:00. -/
def strftimeYmdHMS (t : Nat) : String :=
  let days := t / 86400
  let rem := t % 86400
  let c := civilFromDays days
  padNum 4 c.1 ++ "-" ++ padNum 2 c.2.1 ++ "-" ++ padNum 2 c.2.2 ++ "T" ++
    padNum 2 (rem / 3600) ++ ":" ++ padNum 2 (rem % 3600 / 60) ++ ":" ++
    padNum 2 (rem % 60)

/-- Days strictly before year `y` (year 1 is the first year). -/
def daysBeforeYear (y : Nat) : Nat :=
  (y - 1) * 365 + (y - 1) / 4 + (y - 1) / 400 - (y - 1) / 100

/-- Days before month `m` (1-based) in a year with the given leap status. -/
def daysBeforeMonth (leap : Bool) (m : Nat) : Nat :=
  ((monthLengths leap).take (m - 1)).sum

/-- The instant `y-mo-d h:mi:s` as seconds since 0001-01-01T00:00:00. -/
def datetimeSeconds (y mo d h mi s : Nat) : Nat :=
  (daysBeforeYear y + daysBeforeMonth (isLeapYear y) mo + (d - 1)) * 86400 +
    h * 3600 + mi * 60 + s

/-! ### Query model (`QueryArgBuilder`) -/

/-- The `operator` dictionary of a selector: a type tag (`"BETWEEN"` or
`"EQ"`) and a value list, as built by `QueryArgBuilder`. -/
structure Operator where
  type : String
  values : List String
deriving DecidableEq

/-- One selector dictionary `{'fieldName': ..., 'operator': ...}`. -/
structure Selector where
  fieldName : String
  operator : Operator
deriving DecidableEq

/-- The query dictionary `{'selectors': ...}` returned by `build_query`. -/
structure Query where
  selectors : List Selector
deriving DecidableEq

/-- The `parsed_args` fields read by `QueryArgBuilder` after
`_parse_type_args` has split the comma-separated CLI strings. -/
structure ParsedArgs where
  start_interval : Option (List String)
  schedule_interval : Option (List String)
  status : Option (List String)
deriving DecidableEq

/-- Python list subscripting `l[i]`: raises `IndexError` past the end. -/
def listGet (l : List String) (i : Nat) : Except String String :=
  match l.get? i with
  | some x => Except.ok x
  | none => Except.error "IndexError: list index out of range"

/-- The selectors `QueryArgBuilder._build_schedule_times` appends for one
interval argument (`none` when the argument is absent). -/
def intervalSelectorsOf (fieldName : String) :
    Option (List String) → Except String (List Selector)
  | none => Except.ok []
  | some interval => do
    let start_time_str ← listGet interval 0
    let end_time_str ← listGet interval 1
    Except.ok [⟨fieldName, ⟨"BETWEEN", [start_time_str, end_time_str]⟩⟩]

/-- Embedding of `QueryArgBuilder._build_schedule_times`: append a BETWEEN selector on
`@actualStartTime` for `start_interval` and then one on `@scheduleStartTime`
for `schedule_interval`, each read by unguarded subscripts `[0]`/`[1]`. -/
def build_schedule_times (selectors : List Selector) (parsed_args : ParsedArgs) :
    Except String (List Selector) := do
  let s1 ← intervalSelectorsOf "@actualStartTime" parsed_args.start_interval
  let s2 ← intervalSelectorsOf "@scheduleStartTime" parsed_args.schedule_interval
  Except.ok (selectors ++ s1 ++ s2)

/-- Embedding of `QueryArgBuilder._build_status`: append an EQ selector on `@status`. -/
def build_status (selectors : List Selector) (status : List String) :
    List Selector :=
  selectors ++ [⟨"@status", ⟨"EQ", status⟩⟩]

/-- Embedding of `QueryArgBuilder.build_query`.  Here `current_time` is `self.current_time`
as seconds since 0001-01-01. -/
def build_query (current_time : Nat) (parsed_args : ParsedArgs) :
    Except String Query := do
  let selectors ←
    if parsed_args.start_interval = none ∧ parsed_args.schedule_interval = none then
      let end_datetime := current_time
      let start_datetime := end_datetime - 4 * 86400
      let start_time_str := strftimeYmdHMS start_datetime
      let end_time_str := strftimeYmdHMS end_datetime
      Except.ok [⟨"@actualStartTime", ⟨"BETWEEN", [start_time_str, end_time_str]⟩⟩]
    else
      build_schedule_times [] parsed_args
  let selectors :=
    match parsed_args.status with
    | none => selectors
    | some status => build_status selectors status
  Except.ok ⟨selectors⟩

/-- The default selector synthesized when both intervals are absent:
BETWEEN on `@actualStartTime` over `[now - 4 days, now]`. -/
def defaultSelector (now : Nat) : Selector :=
  ⟨"@actualStartTime", ⟨"BETWEEN", [strftimeYmdHMS (now - 4 * 86400), strftimeYmdHMS now]⟩⟩

/-- The status selectors appended when `--status` was given. -/
def statusSelectors : Option (List String) → List Selector
  | none => []
  | some status => [⟨"@status", ⟨"EQ", status⟩⟩]

/-- The selector list an explicit interval argument contributes: its first
two bounds, verbatim. -/
def intervalSelList (fieldName : String) : Option (List String) → List Selector
  | none => []
  | some l => [⟨fieldName, ⟨"BETWEEN", l.take 2⟩⟩]

/-- A present interval argument carries at least its two bounds. -/
def intervalOK : Option (List String) → Prop
  | none => True
  | some l => 2 ≤ l.length

instance : (o : Option (List String)) → Decidable (intervalOK o)
  | none => Decidable.isTrue trivial
  | some l => Nat.decLe 2 l.length

/-! ### Run records (`convert_described_objects`)

A Python dict with string keys is an insertion-ordered association list;
assigning to an existing key updates it in place.  Stored values are
`Option String` because `field.get('stringValue', field.get('refValue'))`
stores `None` when neither key is present. -/

/-- A normalized run record: an insertion-ordered dictionary. -/
abbrev Record := List (String × Option String)

/-- Python `d[k] = v` on a dict. -/
def dictInsert : Record → String → Option String → Record
  | [], k, v => [(k, v)]
  | (k', v') :: rest, k, v =>
    if k' = k then (k', v) :: rest else (k', v') :: dictInsert rest k v

/-- Key lookup on a dict: `some v` when the key is present storing `v`. -/
def dictGet : Record → String → Option (Option String)
  | [], _ => none
  | (k', v') :: rest, k => if k' = k then some v' else dictGet rest k

/-- Python `d.get(k)`: the stored value, or `None` when absent. -/
def pyGet (d : Record) (k : String) : Option String :=
  match dictGet d k with
  | some v => v
  | none => none

/-- One field record of a `DescribeObjects` response. -/
structure DescField where
  key : String
  stringValue : Option String
  refValue : Option String
deriving DecidableEq

/-- One object of a `DescribeObjects` response. -/
structure DescObj where
  id : String
  name : String
  fields : List DescField
deriving DecidableEq

/-- Python `field.get('stringValue', field.get('refValue'))`: the string value
when present, else the (possibly absent) reference value. -/
def fieldVal (f : DescField) : Option String :=
  match f.stringValue with
  | some s => some s
  | none => f.refValue

/-- The per-object loop body of `convert_described_objects`:
`new_fields[field['key']] = field.get('stringValue', field.get('refValue'))`. -/
def convertOneObject (obj : DescObj) : Record :=
  obj.fields.foldl (fun d f => dictInsert d f.key (fieldVal f))
    [("@id", some obj.id), ("name", some obj.name)]

/-- The sort key type of `list-runs`: a pair of optional strings. -/
abbrev SortKey := Option String × Option String

/-- Lexicographic comparison of char lists (Python string comparison). -/
def charListLe : List Char → List Char → Bool
  | [], _ => true
  | _ :: _, [] => false
  | a :: as, b :: bs => if a = b then charListLe as bs else decide (a < b)

/-- Python 2 comparison of optional strings: `None` sorts before every
string. -/
def optStrLe : Option String → Option String → Bool
  | none, _ => true
  | some _, none => false
  | some a, some b => charListLe a.toList b.toList

/-- Python tuple comparison on sort keys, non-strict. -/
def keyLe (a b : SortKey) : Bool :=
  if a.1 = b.1 then optStrLe a.2 b.2 else optStrLe a.1 b.1

/-- The sort key `lambda x: (x.get('@scheduledStartTime'), x.get('name'))`
passed by `ListRunsCommand._list_runs`. -/
def sort_key_func (x : Record) : SortKey :=
  (pyGet x "@scheduledStartTime", pyGet x "name")

/-- Embedding of `convert_described_objects`: normalize each described object to a flat
record, then (when a key function is given) stable-sort by it, as Python's
stable `list.sort(key=...)`. -/
def convert_described_objects (api_describe_objects : List DescObj)
    (sort_key : Option (Record → SortKey)) : List Record :=
  let converted := api_describe_objects.map convertOneObject
  match sort_key with
  | none => converted
  | some f => converted.mergeSort (fun a b => keyLe (f a) (f b))

/-! ### Formatter (`ListRunsFormatter`) -/

/-- Python `str()` of a stored value (`str(None)` is `"None"`). -/
def pyStr : Option String → String
  | some s => s
  | none => "None"

/-- Python `obj.get(k, '')` rendered through `%s`: the stored value as a
string, or the empty string when the key is absent. -/
def pyGetStr (d : Record) (k : String) : String :=
  match dictGet d k with
  | some v => pyStr v
  | none => ""

/-- The `%-w.ws` conversion: truncate to `w` characters, then left-justify
by padding with spaces to width `w`. -/
def formatField (w : Nat) (s : String) : String :=
  let t := s.toList.take w
  String.mk (t ++ List.replicate (w - t.length) ' ')

/-- The `%4d` conversion: right-justify the numeral in width 4. -/
def formatIndex (n : Nat) : String :=
  let s := toString n
  String.mk (List.replicate (4 - s.length) ' ' ++ s.toList)

/-- The format `FIRST_ROW_FORMAT_STRING = "%4d.  %-50.50s  %-19.19s  %-23.23s"`. -/
def firstRowString (n : Nat) (a b c : String) : String :=
  formatIndex n ++ ".  " ++ formatField 50 a ++ "  " ++ formatField 19 b ++
    "  " ++ formatField 23 c

/-- The format `SECOND_ROW_FORMAT_STRING = "       %-50.50s  %-19.19s  %-19.19s"`. -/
def secondRowString (a b c : String) : String :=
  "       " ++ formatField 50 a ++ "  " ++ formatField 19 b ++ "  " ++
    formatField 19 c

/-- Embedding of `ListRunsFormatter._print_row`: the two lines written for one record.
`obj['@componentParent']` and `obj['@id']` raise `KeyError` when absent;
the four time/status fields default to the empty string. -/
def print_row (index : Nat) (obj : Record) : Except String (String × String) := do
  let logical_name ← match dictGet obj "@componentParent" with
    | some v => Except.ok v
    | none => Except.error "KeyError: @componentParent"
  let object_id ← match dictGet obj "@id" with
    | some v => Except.ok v
    | none => Except.error "KeyError: @id"
  let scheduled_start_date := pyGetStr obj "@scheduledStartTime"
  let status := pyGetStr obj "@status"
  let start_date := pyGetStr obj "@actualStartTime"
  let end_date := pyGetStr obj "@actualEndTime"
  Except.ok
    (firstRowString (index + 1) (pyStr logical_name) scheduled_start_date status,
     secondRowString (pyStr object_id) start_date end_date)

/-- The row lines of `display_objects_to_user` from index `i` on: two lines
per record followed by a blank line. -/
def displayRows : Nat → List Record → Except String (List String)
  | _, [] => Except.ok []
  | i, obj :: rest => do
    let rows ← print_row i obj
    let others ← displayRows (i + 1) rest
    Except.ok (rows.1 :: rows.2 :: "" :: others)

/-- Embedding of `ListRunsFormatter.display_objects_to_user` as the list of lines
written: headers, dashes, then the rows. -/
def display_objects_to_user (objects : List Record) : Except String (List String) := do
  let second_header := secondRowString "ID" "Started" "Ended"
  let rows ← displayRows 0 objects
  Except.ok (("       " ++ formatField 50 "Name" ++ "  " ++ formatField 19 "Scheduled Start"
      ++ "  " ++ formatField 23 "Status") :: second_header ::
    String.mk (List.replicate second_header.length '-') :: rows)

/-! ### `ListRunsCommand` -/

/-- The list `ListRunsCommand.VALID_STATUS`. -/
def VALID_STATUS : List String :=
  ["waiting", "pending", "cancelled", "running", "finished", "failed",
   "waiting_for_runner", "waiting_on_dependencies"]

/-- Python `s.split(',')` on the character list: split at every comma,
keeping empty pieces. -/
def splitCommaChars : List Char → List (List Char)
  | [] => [[]]
  | c :: rest =>
    let r := splitCommaChars rest
    if c = ',' then [] :: r
    else
      match r with
      | [] => [[c]]
      | g :: gs => (c :: g) :: gs

/-- Python `s.strip()`: drop leading and trailing whitespace. -/
def stripChars (cs : List Char) : List Char :=
  ((cs.dropWhile Char.isWhitespace).reverse.dropWhile Char.isWhitespace).reverse

/-- Python `[arg.strip() for arg in s.split(',')]`. -/
def splitAndStrip (s : String) : List String :=
  (splitCommaChars s.toList).map (fun cs => String.mk (stripChars cs))

/-- The `ValueError` message raised for an invalid status token. -/
def invalidStatusMsg (status : String) : String :=
  "Invalid status: " ++ status ++ ", must be one of: " ++
    String.intercalate ", " VALID_STATUS

/-- Embedding of `ListRunsCommand._validate_status_choices`: raise on the first token
outside `VALID_STATUS`. -/
def validate_status_choices : List String → Except String Unit
  | [] => Except.ok ()
  | status :: rest =>
    if status ∈ VALID_STATUS then validate_status_choices rest
    else Except.error (invalidStatusMsg status)

/-- The raw CLI argument values handed to `_run_main`. -/
structure RawArgs where
  pipeline_id : String
  status : Option String
  start_interval : Option String
  schedule_interval : Option String

/-- Embedding of `ListRunsCommand._parse_type_args`: split the three comma-separated
arguments and validate the status tokens. -/
def parse_type_args (a : RawArgs) : Except String ParsedArgs := do
  let start := a.start_interval.map splitAndStrip
  let sched := a.schedule_interval.map splitAndStrip
  let status := a.status.map splitAndStrip
  match status with
  | none => pure ()
  | some tokens => validate_status_choices tokens
  Except.ok ⟨start, sched, status⟩

/-- Embedding of `ListRunsCommand._run_main` and `_list_runs`, with the two external
service calls (`QueryObjects` pagination and `DescribeObjects`) passed in
as function parameters and `now` the builder's current time.  Returns the
lines written to the output stream. -/
def run_main (query_objects : String → Query → List String)
    (describe_objects : String → List String → List DescObj)
    (now : Nat) (a : RawArgs) : Except String (List String) := do
  let parsed_args ← parse_type_args a
  let query ← build_query now parsed_args
  let object_ids := query_objects a.pipeline_id query
  let objects := describe_objects a.pipeline_id object_ids
  let converted := convert_described_objects objects (some sort_key_func)
  display_objects_to_user converted

/-! ### Pipeline-definition translator

The module `awscli.customizations.datapipeline.translator` is imported by
the source but its file is not part of this tree, so the translator is
modelled from the specification (FieldCodec and DefinitionTranslator). -/

/-- One API field: `{key, stringValue?, refValue?}`. -/
structure ApiField where
  key : String
  stringValue : Option String
  refValue : Option String
deriving DecidableEq

/-- One API pipeline object: `{id, name, fields}`. -/
structure ApiObject where
  id : String
  name : String
  fields : List ApiField
deriving DecidableEq

/-- A single definition value: a scalar string or a `{"ref": id}` mapping. -/
inductive SV where
  | str : String → SV
  | ref : String → SV
deriving DecidableEq

/-- A definition-object value: a single value or an ordered sequence
accumulated for a repeated key. -/
inductive DefValue where
  | single : SV → DefValue
  | many : List SV → DefValue
deriving DecidableEq

/-- A definition object: an insertion-ordered mapping from keys to
definition values, carrying the reserved keys `id` and `name`. -/
abbrev DefObject := List (String × DefValue)

/-- The definition document `{"objects": [...]}`. -/
structure DefDocument where
  objects : List DefObject
deriving DecidableEq

/-- Modelled from the spec: `FieldCodec.to_definition_entry` of the absent
`translator` module — if `refValue` is present the value is the reference
mapping, else the scalar `stringValue`; neither present is
`MalformedFieldError`. -/
def to_definition_entry (f : ApiField) : Except String (String × SV) :=
  match f.refValue with
  | some r => Except.ok (f.key, SV.ref r)
  | none =>
    match f.stringValue with
    | some s => Except.ok (f.key, SV.str s)
    | none => Except.error "MalformedFieldError"

/-- Modelled from the spec: `FieldCodec.to_api_field` of the absent
`translator` module — a reference mapping becomes `refValue`, a string
becomes `stringValue`. -/
def to_api_field (k : String) (v : SV) : ApiField :=
  match v with
  | SV.str s => ⟨k, some s, none⟩
  | SV.ref r => ⟨k, none, some r⟩

/-- Modelled from the spec: adding one `(key, value)` entry to a definition
object — a fresh key is appended as a single value; a repeated key
accumulates an ordered sequence of every occurrence. -/
def addAttr : DefObject → String → SV → DefObject
  | [], k, v => [(k, DefValue.single v)]
  | (k', dv) :: rest, k, v =>
    if k' = k then
      match dv with
      | DefValue.single v0 => (k', DefValue.many [v0, v]) :: rest
      | DefValue.many vs => (k', DefValue.many (vs ++ [v])) :: rest
    else (k', dv) :: addAttr rest k v

/-- Convert every API field of one object to a definition entry. -/
def fieldsToEntries : List ApiField → Except String (List (String × SV))
  | [] => Except.ok []
  | f :: rest => do
    let e ← to_definition_entry f
    let es ← fieldsToEntries rest
    Except.ok (e :: es)

/-- Modelled from the spec: `api_to_definition` on one object — start the
mapping with the reserved `id` and `name` keys, then add every field's
entry in order under the repeated-key rule. -/
def objectToDefinition (obj : ApiObject) : Except String DefObject := do
  let entries ← fieldsToEntries obj.fields
  Except.ok (entries.foldl (fun attrs e => addAttr attrs e.1 e.2)
    [("id", DefValue.single (SV.str obj.id)), ("name", DefValue.single (SV.str obj.name))])

/-- Convert a list of objects, propagating the first failure. -/
def objectsToDefinitions : List ApiObject → Except String (List DefObject)
  | [] => Except.ok []
  | o :: rest => do
    let d ← objectToDefinition o
    let ds ← objectsToDefinitions rest
    Except.ok (d :: ds)

/-- Modelled from the spec: `translator.api_to_definition` of the absent
`translator` module. -/
def api_to_definition (objs : List ApiObject) : Except String DefDocument := do
  let ds ← objectsToDefinitions objs
  Except.ok ⟨ds⟩

/-- The API fields one definition entry expands to: one field per element
of a sequence, a single field otherwise. -/
def expandAttr (k : String) : DefValue → List ApiField
  | DefValue.single v => [to_api_field k v]
  | DefValue.many vs => vs.map (to_api_field k)

/-- Expand a whole definition mapping to a field list, in key order then
element order. -/
def attrsToFields : DefObject → List ApiField
  | [] => []
  | (k, dv) :: rest => expandAttr k dv ++ attrsToFields rest

/-- Find a key in a definition object and remove its entry, keeping the
order of the rest. -/
def lookupRemove : DefObject → String → Option (DefValue × DefObject)
  | [], _ => none
  | (k', v) :: rest, k =>
    if k' = k then some (v, rest)
    else
      match lookupRemove rest k with
      | none => none
      | some p => some (p.1, (k', v) :: p.2)

/-- Modelled from the spec: `definition_to_api` on one definition object —
extract the reserved `id` and `name` string entries (absent is
`MissingRequiredKeyError`) and expand every remaining key to API fields. -/
def definitionObjectToApi (d : DefObject) : Except String ApiObject := do
  let idp ← match lookupRemove d "id" with
    | some p => Except.ok p
    | none => Except.error "MissingRequiredKeyError: id"
  let namep ← match lookupRemove idp.2 "name" with
    | some p => Except.ok p
    | none => Except.error "MissingRequiredKeyError: name"
  let idStr ← match idp.1 with
    | DefValue.single (SV.str s) => Except.ok s
    | _ => Except.error "MissingRequiredKeyError: id"
  let nameStr ← match namep.1 with
    | DefValue.single (SV.str s) => Except.ok s
    | _ => Except.error "MissingRequiredKeyError: name"
  Except.ok ⟨idStr, nameStr, attrsToFields namep.2⟩

/-- Convert every definition object back, propagating the first failure. -/
def definitionObjectsToApi : List DefObject → Except String (List ApiObject)
  | [] => Except.ok []
  | d :: rest => do
    let o ← definitionObjectToApi d
    let os ← definitionObjectsToApi rest
    Except.ok (o :: os)

/-- Modelled from the spec: `translator.definition_to_api` of the absent
`translator` module. -/
def definition_to_api (doc : DefDocument) : Except String (List ApiObject) :=
  definitionObjectsToApi doc.objects

/-- A well-formed API field: exactly one of `stringValue`/`refValue` is
present, and the key does not collide with the reserved `id`/`name`
definition keys. -/
def WFField (f : ApiField) : Prop :=
  ((f.stringValue = none ∧ f.refValue ≠ none) ∨ (f.stringValue ≠ none ∧ f.refValue = none))
    ∧ f.key ≠ "id" ∧ f.key ≠ "name"

instance (f : ApiField) : Decidable (WFField f) := by
  unfold WFField; infer_instance

/-! ### Lemmas about the query builder -/

lemma exists_cons_cons_of_two_le {l : List String} (h : 2 ≤ l.length) :
    ∃ a b t, l = a :: b :: t := by
  cases l with
  | nil => exact absurd h (by simp)
  | cons a l1 =>
    cases l1 with
    | nil => exact absurd h (by simp)
    | cons b t => exact ⟨a, b, t, rfl⟩

/-- With both intervals absent, `build_query` synthesizes the default
four-day window and appends the status selector when present. -/
lemma build_query_default (now : Nat) (st : Option (List String)) :
    build_query now ⟨none, none, st⟩ =
      Except.ok ⟨defaultSelector now :: statusSelectors st⟩ := by
  cases st <;> rfl

/-- With at least one interval present and both present ones two long,
`build_query` emits exactly the explicit selectors, time first,
status last. -/
lemma build_query_explicit_eq (now : Nat) (args : ParsedArgs)
    (h : ¬(args.start_interval = none ∧ args.schedule_interval = none))
    (h1 : intervalOK args.start_interval) (h2 : intervalOK args.schedule_interval) :
    build_query now args =
      Except.ok ⟨intervalSelList "@actualStartTime" args.start_interval ++
        intervalSelList "@scheduleStartTime" args.schedule_interval ++
        statusSelectors args.status⟩ := by
  obtain ⟨si, sc, st⟩ := args
  rcases si with _ | l
  · rcases sc with _ | l2
    · exact absurd ⟨rfl, rfl⟩ h
    · obtain ⟨c, d, u, rfl⟩ := exists_cons_cons_of_two_le h2
      cases st <;> rfl
  · obtain ⟨a, b, t, rfl⟩ := exists_cons_cons_of_two_le h1
    rcases sc with _ | l2
    · cases st <;> rfl
    · obtain ⟨c, d, u, rfl⟩ := exists_cons_cons_of_two_le h2
      cases st <;> rfl

lemma intervalSelectorsOf_take2 (fn : String) (l : List String) :
    intervalSelectorsOf fn (some (l.take 2)) = intervalSelectorsOf fn (some l) := by
  rcases l with _ | ⟨a, l⟩
  · rfl
  rcases l with _ | ⟨b, t⟩ <;> rfl

/-- C2: with both `start_interval` and `schedule_interval` absent, the
query holds exactly one BETWEEN selector on `@actualStartTime` whose
values are `now - 4 days` and `now`, both rendered `YYYY-MM-DDTHH:MM:SS`;
in particular at `now = 2024-01-10T00:00:00` with no status, the query is
exactly that one selector with values `2024-01-06T00:00:00` and
`2024-01-10T00:00:00`. -/
theorem C2_default_query_window :
    (∀ (now : Nat) (st : Option (List String)), 4 * 86400 ≤ now →
      build_query now ⟨none, none, st⟩ =
        Except.ok ⟨defaultSelector now :: statusSelectors st⟩) ∧
    build_query (datetimeSeconds 2024 1 10 0 0 0) ⟨none, none, none⟩ =
      Except.ok ⟨[⟨"@actualStartTime",
        ⟨"BETWEEN", ["2024-01-06T00:00:00", "2024-01-10T00:00:00"]⟩⟩]⟩ := by
  constructor
  · intro now st _
    exact build_query_default now st
  · rfl

theorem C2_default_query_window_witness :
    4 * 86400 ≤ datetimeSeconds 2025 3 1 12 30 45 ∧
    build_query (datetimeSeconds 2025 3 1 12 30 45) ⟨none, none, some ["running"]⟩ =
      Except.ok ⟨defaultSelector (datetimeSeconds 2025 3 1 12 30 45) ::
        statusSelectors (some ["running"])⟩ :=
  ⟨by decide, C2_default_query_window.1 (datetimeSeconds 2025 3 1 12 30 45)
    (some ["running"]) (by decide)⟩

/-- C3: with at least one interval present (and each present interval
carrying its two bounds), the query holds the BETWEEN selector on
`@actualStartTime` for `start_interval` first, then the BETWEEN selector
on `@scheduleStartTime` for `schedule_interval`, with the caller's bounds
verbatim, then the EQ selector on `@status` last when a status is present
— and nothing else, so the default window is never also emitted. -/
theorem C3_explicit_interval_selectors :
    ∀ (now : Nat) (args : ParsedArgs),
      ¬(args.start_interval = none ∧ args.schedule_interval = none) →
      intervalOK args.start_interval → intervalOK args.schedule_interval →
      build_query now args =
        Except.ok ⟨intervalSelList "@actualStartTime" args.start_interval ++
          intervalSelList "@scheduleStartTime" args.schedule_interval ++
          statusSelectors args.status⟩ :=
  fun now args h h1 h2 => build_query_explicit_eq now args h h1 h2

theorem C3_explicit_interval_selectors_witness :
    ¬((some ["2024-01-01T00:00:00", "2024-01-02T00:00:00"] : Option (List String)) = none
        ∧ (none : Option (List String)) = none) ∧
    intervalOK (some ["2024-01-01T00:00:00", "2024-01-02T00:00:00"]) ∧
    intervalOK (none : Option (List String)) ∧
    build_query 0 ⟨some ["2024-01-01T00:00:00", "2024-01-02T00:00:00"], none,
        some ["running", "failed"]⟩ =
      Except.ok ⟨intervalSelList "@actualStartTime"
          (some ["2024-01-01T00:00:00", "2024-01-02T00:00:00"]) ++
        intervalSelList "@scheduleStartTime" none ++
        statusSelectors (some ["running", "failed"])⟩ :=
  ⟨by decide, by decide, trivial,
    C3_explicit_interval_selectors 0
      ⟨some ["2024-01-01T00:00:00", "2024-01-02T00:00:00"], none,
        some ["running", "failed"]⟩ (by decide) (by decide) trivial⟩

/-- C10: `build_query` reads only the first two elements of a present
interval (truncating every interval to two elements leaves the result
unchanged); a present interval with fewer than two elements makes it fail
on the unguarded index access; and under the precondition that every
present interval has at least two elements it always succeeds. -/
theorem C10_interval_index_safety :
    (∀ (now : Nat) (args : ParsedArgs),
      build_query now ⟨args.start_interval.map (fun l => l.take 2),
        args.schedule_interval.map (fun l => l.take 2), args.status⟩ =
      build_query now args) ∧
    (∀ (now : Nat) (args : ParsedArgs),
      ((∃ l, args.start_interval = some l ∧ l.length < 2) ∨
       (∃ l, args.schedule_interval = some l ∧ l.length < 2)) →
      ∃ e, build_query now args = Except.error e) ∧
    (∀ (now : Nat) (args : ParsedArgs),
      intervalOK args.start_interval → intervalOK args.schedule_interval →
      ∃ q, build_query now args = Except.ok q) := by
  refine ⟨?_, ?_, ?_⟩
  · intro now args
    obtain ⟨si, sc, st⟩ := args
    cases si <;> cases sc <;>
      simp [build_query, build_schedule_times, intervalSelectorsOf_take2]
  · intro now args h
    obtain ⟨si, sc, st⟩ := args
    rcases h with ⟨l, hsi, hlen⟩ | ⟨l, hsc, hlen⟩
    · cases hsi
      rcases l with _ | ⟨a, _ | ⟨b, t⟩⟩
      · exact ⟨_, rfl⟩
      · exact ⟨_, rfl⟩
      · exact absurd hlen (by simp)
    · cases hsc
      rcases l with _ | ⟨a, _ | ⟨b, t⟩⟩
      · rcases si with _ | ⟨_ | ⟨a2, _ | ⟨b2, t2⟩⟩⟩ <;> exact ⟨_, rfl⟩
      · rcases si with _ | ⟨_ | ⟨a2, _ | ⟨b2, t2⟩⟩⟩ <;> exact ⟨_, rfl⟩
      · exact absurd hlen (by simp)
  · intro now args h1 h2
    obtain ⟨si, sc, st⟩ := args
    rcases si with _ | l
    · rcases sc with _ | l2
      · exact ⟨_, build_query_default now st⟩
      · obtain ⟨c, d, u, rfl⟩ := exists_cons_cons_of_two_le h2
        exact ⟨_, rfl⟩
    · obtain ⟨a, b, t, rfl⟩ := exists_cons_cons_of_two_le h1
      rcases sc with _ | l2
      · exact ⟨_, rfl⟩
      · obtain ⟨c, d, u, rfl⟩ := exists_cons_cons_of_two_le h2
        exact ⟨_, rfl⟩

theorem C10_interval_index_safety_witness :
    build_query 5 ⟨some (["a", "b", "c"].take 2), some (["d", "e"].take 2), none⟩ =
      build_query 5 ⟨some ["a", "b", "c"], some ["d", "e"], none⟩ ∧
    (∃ e, build_query 5 ⟨some ["onlyone"], none, none⟩ = Except.error e) ∧
    ((∃ l, (some ["onlyone"] : Option (List String)) = some l ∧ l.length < 2) ∨
      (∃ l, (none : Option (List String)) = some l ∧ l.length < 2)) ∧
    intervalOK (some ["a", "b", "c"]) ∧
    (∃ q, build_query 5 ⟨some ["a", "b", "c"], none, none⟩ = Except.ok q) :=
  ⟨C10_interval_index_safety.1 5 ⟨some ["a", "b", "c"], some ["d", "e"], none⟩,
   C10_interval_index_safety.2.1 5 ⟨some ["onlyone"], none, none⟩
     (Or.inl ⟨["onlyone"], rfl, by decide⟩),
   Or.inl ⟨["onlyone"], rfl, by decide⟩,
   by decide,
   C10_interval_index_safety.2.2 5 ⟨some ["a", "b", "c"], none, none⟩ (by decide) trivial⟩

/-! ### Lemmas about status validation -/

/-- The loop of `_validate_status_choices` raises on the first invalid token. -/
lemma validate_error_of_find {ts : List String} {bad : String}
    (h : ts.find? (fun t => decide (t ∉ VALID_STATUS)) = some bad) :
    validate_status_choices ts = Except.error (invalidStatusMsg bad) := by
  induction ts with
  | nil => simp [List.find?] at h
  | cons t rest ih =>
    rw [List.find?] at h
    by_cases hv : t ∈ VALID_STATUS
    · rw [show (decide (t ∉ VALID_STATUS)) = false by simp [hv]] at h
      simp only [validate_status_choices, if_pos hv]
      exact ih h
    · rw [show (decide (t ∉ VALID_STATUS)) = true by simp [hv]] at h
      injection h with h
      subst h
      simp only [validate_status_choices, if_neg hv]

/-- An invalid status token makes `_parse_type_args` fail with the
`ValueError` message. -/
lemma parse_type_args_error {a : RawArgs} {s bad : String}
    (hs : a.status = some s)
    (h : validate_status_choices (splitAndStrip s) = Except.error (invalidStatusMsg bad)) :
    parse_type_args a = Except.error (invalidStatusMsg bad) := by
  simp only [parse_type_args, hs, h, Option.map_some']
  rfl

/-- A `_parse_type_args` failure is the whole command's failure. -/
lemma run_main_error_of_parse {qf : String → Query → List String}
    {df : String → List String → List DescObj} {now : Nat} {a : RawArgs} {e : String}
    (h : parse_type_args a = Except.error e) :
    run_main qf df now a = Except.error e := by
  simp only [run_main, h]
  rfl

/-- C4: a status token outside the fixed valid set makes `list-runs` fail
with a message naming the first offending token and enumerating the whole
valid set, during argument parsing — the result is this error for every
query/describe collaborator, so no query is built and no external call is
consulted. -/
theorem C4_invalid_status_rejected :
    ∀ (a : RawArgs) (s bad : String),
      a.status = some s →
      (splitAndStrip s).find? (fun t => decide (t ∉ VALID_STATUS)) = some bad →
      bad ∈ splitAndStrip s ∧ bad ∉ VALID_STATUS ∧
      ∀ (query_objects : String → Query → List String)
        (describe_objects : String → List String → List DescObj) (now : Nat),
        run_main query_objects describe_objects now a =
          Except.error ("Invalid status: " ++ bad ++ ", must be one of: " ++
            String.intercalate ", " VALID_STATUS) := by
  intro a s bad hs hfind
  refine ⟨List.mem_of_find?_eq_some hfind, ?_, ?_⟩
  · have := List.find?_some hfind
    simpa using this
  · intro qf df now
    exact run_main_error_of_parse (parse_type_args_error hs (validate_error_of_find hfind))

theorem C4_invalid_status_rejected_witness :
    ("bogus" ∈ splitAndStrip "running,bogus" ∧ "bogus" ∉ VALID_STATUS ∧
      run_main (fun _ _ => []) (fun _ _ => []) 0
          ⟨"df-123", some "running,bogus", none, none⟩ =
        Except.error ("Invalid status: " ++ "bogus" ++ ", must be one of: " ++
          String.intercalate ", " VALID_STATUS)) ∧
    (splitAndStrip "running,bogus").find? (fun t => decide (t ∉ VALID_STATUS)) =
      some "bogus" := by
  have h := C4_invalid_status_rejected ⟨"df-123", some "running,bogus", none, none⟩
    "running,bogus" "bogus" rfl (by decide)
  exact ⟨⟨h.1, h.2.1, h.2.2 (fun _ _ => []) (fun _ _ => []) 0⟩, by decide⟩

/-! ### Lemmas about the record dictionary -/

lemma dictGet_dictInsert_self (d : Record) (k : String) (v : Option String) :
    dictGet (dictInsert d k v) k = some v := by
  induction d with
  | nil => simp [dictInsert, dictGet]
  | cons p rest ih =>
    obtain ⟨k', v'⟩ := p
    by_cases h : k' = k
    · simp [dictInsert, dictGet, h]
    · simp [dictInsert, dictGet, h, ih]

lemma dictGet_dictInsert_ne (d : Record) {k k' : String} (v : Option String)
    (h : k ≠ k') : dictGet (dictInsert d k v) k' = dictGet d k' := by
  induction d with
  | nil => simp [dictInsert, dictGet, h]
  | cons p rest ih =>
    obtain ⟨k0, v0⟩ := p
    by_cases h0 : k0 = k
    · subst h0
      simp [dictInsert, dictGet, h]
    · simp [dictInsert, dictGet, h0, ih]

/-- Folding fields none of which carries key `k` leaves `k`'s entry
unchanged. -/
lemma dictGet_foldl_ne {fields : List DescField} (d : Record) {k : String}
    (h : ∀ f ∈ fields, f.key ≠ k) :
    dictGet (fields.foldl (fun d f => dictInsert d f.key (fieldVal f)) d) k =
      dictGet d k := by
  induction fields generalizing d with
  | nil => rfl
  | cons g rest ih =>
    rw [List.foldl_cons,
      ih (dictInsert d g.key (fieldVal g)) (fun f hf => h f (List.mem_cons_of_mem g hf)),
      dictGet_dictInsert_ne d (fieldVal g) (h g (List.mem_cons_self g rest))]

/-- With pairwise-distinct keys, every folded field is looked up to its own
value. -/
lemma dictGet_foldl_mem {fields : List DescField} (d : Record)
    (hnd : (fields.map DescField.key).Nodup) :
    ∀ f ∈ fields,
      dictGet (fields.foldl (fun d f => dictInsert d f.key (fieldVal f)) d) f.key =
        some (fieldVal f) := by
  induction fields generalizing d with
  | nil => intro f hf; exact absurd hf (List.not_mem_nil f)
  | cons g rest ih =>
    rw [List.map_cons, List.nodup_cons] at hnd
    intro f hf
    rcases List.mem_cons.mp hf with rfl | hf
    · have hrest : ∀ x ∈ rest, x.key ≠ f.key := by
        intro x hx hex
        exact hnd.1 (hex ▸ List.mem_map_of_mem DescField.key hx)
      rw [List.foldl_cons, dictGet_foldl_ne _ hrest, dictGet_dictInsert_self]
    · exact ih _ hnd.2 f hf

/-- C5 counterexample: a described object whose field has neither
`stringValue` nor `refValue` is still converted — the run-record normalizer
produces a record mapping the key to the null value instead of failing. -/
theorem C5_counterexample_no_failure :
    convert_described_objects [⟨"i-1", "n-1", [⟨"@sphere", none, none⟩]⟩] none =
      [[("@id", some "i-1"), ("name", some "n-1"), ("@sphere", none)]] := by
  rfl

/-- C5 (amended): the run-record normalizer never fails — it returns one
record per described object, and a field with neither `stringValue` nor
`refValue` is stored under its key with the null value. -/
theorem C5_missing_field_data_amended :
    (∀ (objs : List DescObj) (sk : Option (Record → SortKey)),
      (convert_described_objects objs sk).length = objs.length) ∧
    (∀ (i n k : String), k ≠ "@id" → k ≠ "name" →
      convertOneObject ⟨i, n, [⟨k, none, none⟩]⟩ =
        [("@id", some i), ("name", some n), (k, none)]) := by
  constructor
  · intro objs sk
    cases sk <;> simp [convert_described_objects]
  · intro i n k h1 h2
    simp [convertOneObject, fieldVal, dictInsert, Ne.symm h1, Ne.symm h2]

theorem C5_missing_field_data_amended_witness :
    (convert_described_objects
        [⟨"i-1", "n-1", [⟨"@sphere", none, none⟩]⟩, ⟨"i-2", "n-2", []⟩] none).length = 2 ∧
    ("@sphere" : String) ≠ "@id" ∧ ("@sphere" : String) ≠ "name" ∧
    convertOneObject ⟨"i-1", "n-1", [⟨"@sphere", none, none⟩]⟩ =
      [("@id", some "i-1"), ("name", some "n-1"), ("@sphere", none)] :=
  ⟨C5_missing_field_data_amended.1 _ none, by decide, by decide,
    C5_missing_field_data_amended.2 "i-1" "n-1" "@sphere" (by decide) (by decide)⟩

/-- C9: the normalized record starts from `@id` mapped to the object's id
and `name` to its name, and maps each field's key to its `stringValue`
when present, else its `refValue` — `stringValue` taking precedence when
both are present (stated for records whose field keys are distinct and
avoid the reserved `@id`/`name` keys). -/
theorem C9_normalizer_mapping :
    ∀ (obj : DescObj),
      (obj.fields.map DescField.key).Nodup →
      (∀ f ∈ obj.fields, f.key ≠ "@id" ∧ f.key ≠ "name") →
      dictGet (convertOneObject obj) "@id" = some (some obj.id) ∧
      dictGet (convertOneObject obj) "name" = some (some obj.name) ∧
      (∀ f ∈ obj.fields,
        dictGet (convertOneObject obj) f.key = some (fieldVal f)) ∧
      (∀ f ∈ obj.fields, ∀ s, f.stringValue = some s →
        dictGet (convertOneObject obj) f.key = some (some s)) := by
  intro obj hnd hres
  refine ⟨?_, ?_, ?_, ?_⟩
  · rw [convertOneObject, dictGet_foldl_ne _ (fun f hf => (hres f hf).1)]
    rfl
  · rw [convertOneObject, dictGet_foldl_ne _ (fun f hf => (hres f hf).2)]
    rfl
  · exact dictGet_foldl_mem _ hnd
  · intro f hf s hs
    have h3 := @dictGet_foldl_mem obj.fields
      [("@id", some obj.id), ("name", some obj.name)] hnd f hf
    have h4 : fieldVal f = some s := by simp [fieldVal, hs]
    rw [convertOneObject, h3, h4]

theorem C9_normalizer_mapping_witness :
    ((([⟨"@status", some "finished", some "ref-1"⟩, ⟨"parent", none, some "o-9"⟩] :
        List DescField).map DescField.key).Nodup ∧
      dictGet (convertOneObject ⟨"o-1", "Run1",
          [⟨"@status", some "finished", some "ref-1"⟩, ⟨"parent", none, some "o-9"⟩]⟩)
        "@id" = some (some "o-1") ∧
      dictGet (convertOneObject ⟨"o-1", "Run1",
          [⟨"@status", some "finished", some "ref-1"⟩, ⟨"parent", none, some "o-9"⟩]⟩)
        "@status" = some (some "finished") ∧
      dictGet (convertOneObject ⟨"o-1", "Run1",
          [⟨"@status", some "finished", some "ref-1"⟩, ⟨"parent", none, some "o-9"⟩]⟩)
        "parent" = some (some "o-9")) := by
  have h := C9_normalizer_mapping ⟨"o-1", "Run1",
    [⟨"@status", some "finished", some "ref-1"⟩, ⟨"parent", none, some "o-9"⟩]⟩
    (by decide) (by decide)
  refine ⟨by decide, h.1, ?_, ?_⟩
  · exact h.2.2.2 ⟨"@status", some "finished", some "ref-1"⟩ (by decide) "finished" rfl
  · exact h.2.2.1 ⟨"parent", none, some "o-9"⟩ (by decide)

/-! ### Lemmas about the formatter -/

lemma formatField_length (w : Nat) (s : String) : (formatField w s).length = w := by
  have h : (s.toList.take w).length ≤ w := by
    rw [List.length_take]
    exact Nat.min_le_left w s.toList.length
  show (s.toList.take w ++ List.replicate (w - (s.toList.take w).length) ' ').length = w
  rw [List.length_append, List.length_replicate]
  omega

/-- C7: a record lacking `@componentParent` or `@id` makes `_print_row`
fail with the corresponding `KeyError`, while with both present the two
row lines are rendered with `@scheduledStartTime`, `@status`,
`@actualStartTime` and `@actualEndTime` read through a lookup that yields
the empty string for an absent key. -/
theorem C7_formatter_required_and_defaults :
    ∀ (i : Nat) (obj : Record),
      (dictGet obj "@componentParent" = none →
        print_row i obj = Except.error "KeyError: @componentParent") ∧
      (∀ cp, dictGet obj "@componentParent" = some cp →
        dictGet obj "@id" = none →
        print_row i obj = Except.error "KeyError: @id") ∧
      (∀ cp oid, dictGet obj "@componentParent" = some cp →
        dictGet obj "@id" = some oid →
        print_row i obj = Except.ok
          (firstRowString (i + 1) (pyStr cp) (pyGetStr obj "@scheduledStartTime")
            (pyGetStr obj "@status"),
           secondRowString (pyStr oid) (pyGetStr obj "@actualStartTime")
            (pyGetStr obj "@actualEndTime"))) ∧
      (∀ k, dictGet obj k = none → pyGetStr obj k = "") := by
  intro i obj
  refine ⟨?_, ?_, ?_, ?_⟩
  · intro h
    simp only [print_row, h]
    rfl
  · intro cp h1 h2
    simp only [print_row, h1, h2]
    rfl
  · intro cp oid h1 h2
    simp only [print_row, h1, h2]
    rfl
  · intro k h
    simp only [pyGetStr, h]

theorem C7_formatter_required_and_defaults_witness :
    (dictGet [("name", some "x")] "@componentParent" = none ∧
      print_row 0 [("name", some "x")] = Except.error "KeyError: @componentParent") ∧
    (dictGet [("@componentParent", some "Foo"), ("@id", some "df-123"),
        ("@status", some "finished")] "@componentParent" = some (some "Foo") ∧
      dictGet [("@componentParent", some "Foo"), ("@id", some "df-123"),
        ("@status", some "finished")] "@id" = some (some "df-123") ∧
      print_row 0 [("@componentParent", some "Foo"), ("@id", some "df-123"),
          ("@status", some "finished")] =
        Except.ok (firstRowString 1 "Foo" "" "finished",
          secondRowString "df-123" "" "")) := by
  have h1 := (C7_formatter_required_and_defaults 0 [("name", some "x")]).1 rfl
  have h2 := (C7_formatter_required_and_defaults 0
    [("@componentParent", some "Foo"), ("@id", some "df-123"),
      ("@status", some "finished")]).2.2.1 (some "Foo") (some "df-123") rfl rfl
  exact ⟨⟨rfl, h1⟩, ⟨rfl, rfl, h2⟩⟩

/-- C8 counterexample: on line 2 the third column is formatted `%-19.19s`,
not `%-23.23s` — a 23-character `@actualEndTime` is truncated to its first
19 characters, so not every field of line 2 is truncated/padded to the
claimed 50/19/23 widths. -/
theorem C8_counterexample_line2_width :
    print_row 0 [("@componentParent", some "Foo"), ("@id", some "df-123"),
        ("@actualEndTime", some "2024-01-02T03:04:05.678")] =
      Except.ok (firstRowString 1 "Foo" "" "",
        "       " ++ formatField 50 "df-123" ++ "  " ++ formatField 19 "" ++ "  " ++
          "2024-01-02T03:04:05") ∧
    "2024-01-02T03:04:05.678".length = 23 ∧
    "2024-01-02T03:04:05".length = 19 ∧
    formatField 19 "2024-01-02T03:04:05.678" = "2024-01-02T03:04:05" ∧
    formatField 23 "2024-01-02T03:04:05.678" = "2024-01-02T03:04:05.678" :=
  ⟨rfl, rfl, rfl, rfl, rfl⟩

/-- C8 (amended): every rendered field is truncated or padded to a fixed
width, namely 50/19/23 on line 1 and 50/19/19 on line 2 — the second
line's third column is 19 characters wide, not 23. -/
theorem C8_row_widths_amended :
    ∀ (i : Nat) (obj : Record) (cp oid : Option String),
      dictGet obj "@componentParent" = some cp →
      dictGet obj "@id" = some oid →
      ∃ a b c d e f, print_row i obj =
        Except.ok (formatIndex (i + 1) ++ ".  " ++ a ++ "  " ++ b ++ "  " ++ c,
          "       " ++ d ++ "  " ++ e ++ "  " ++ f) ∧
        a.length = 50 ∧ b.length = 19 ∧ c.length = 23 ∧
        d.length = 50 ∧ e.length = 19 ∧ f.length = 19 := by
  intro i obj cp oid h1 h2
  refine ⟨formatField 50 (pyStr cp), formatField 19 (pyGetStr obj "@scheduledStartTime"),
    formatField 23 (pyGetStr obj "@status"), formatField 50 (pyStr oid),
    formatField 19 (pyGetStr obj "@actualStartTime"),
    formatField 19 (pyGetStr obj "@actualEndTime"), ?_,
    formatField_length 50 _, formatField_length 19 _, formatField_length 23 _,
    formatField_length 50 _, formatField_length 19 _, formatField_length 19 _⟩
  simp only [print_row, h1, h2, firstRowString, secondRowString]
  rfl

theorem C8_row_widths_amended_witness :
    dictGet [("@componentParent", some "Foo"), ("@id", some "df-123")]
      "@componentParent" = some (some "Foo") ∧
    dictGet [("@componentParent", some "Foo"), ("@id", some "df-123")]
      "@id" = some (some "df-123") ∧
    ∃ a b c d e f,
      print_row 7 [("@componentParent", some "Foo"), ("@id", some "df-123")] =
        Except.ok (formatIndex 8 ++ ".  " ++ a ++ "  " ++ b ++ "  " ++ c,
          "       " ++ d ++ "  " ++ e ++ "  " ++ f) ∧
        a.length = 50 ∧ b.length = 19 ∧ c.length = 23 ∧
        d.length = 50 ∧ e.length = 19 ∧ f.length = 19 :=
  ⟨rfl, rfl, C8_row_widths_amended 7
    [("@componentParent", some "Foo"), ("@id", some "df-123")]
    (some "Foo") (some "df-123") rfl rfl⟩

/-! ### The sort comparator: totality, transitivity, reflexivity -/

lemma charListLe_refl : ∀ cs : List Char, charListLe cs cs = true
  | [] => rfl
  | c :: cs => by simp [charListLe, charListLe_refl cs]

lemma charListLe_total : ∀ as bs : List Char, (charListLe as bs || charListLe bs as) = true
  | [], _ => by simp [charListLe]
  | _ :: _, [] => by simp [charListLe]
  | a :: as, b :: bs => by
    by_cases h : a = b
    · subst h
      simpa [charListLe] using charListLe_total as bs
    · simp only [charListLe, if_neg h, if_neg (Ne.symm h), Bool.or_eq_true,
        decide_eq_true_eq]
      rcases lt_or_gt_of_ne h with hlt | hgt
      · exact Or.inl hlt
      · exact Or.inr hgt

lemma charListLe_trans : ∀ {as bs cs : List Char},
    charListLe as bs = true → charListLe bs cs = true → charListLe as cs = true
  | [], _, _, _, _ => rfl
  | _ :: _, [], _, h1, _ => by simp [charListLe] at h1
  | _ :: _, _ :: _, [], _, h2 => by simp [charListLe] at h2
  | a :: as, b :: bs, c :: cs, h1, h2 => by
    by_cases hab : a = b
    · subst hab
      by_cases hac : a = c
      · subst hac
        simp only [charListLe, if_pos rfl] at h1 h2 ⊢
        exact charListLe_trans h1 h2
      · simp only [charListLe, if_pos rfl, if_neg hac] at h1 h2 ⊢
        exact h2
    · by_cases hbc : b = c
      · subst hbc
        simp only [charListLe, if_neg hab] at h1 ⊢
        exact h1
      · by_cases hac : a = c
        · subst hac
          simp only [charListLe, if_neg hab, if_neg hbc, decide_eq_true_eq] at h1 h2
          exact absurd (lt_trans h1 h2) (lt_irrefl a)
        · simp only [charListLe, if_neg hab, if_neg hbc, if_neg hac,
            decide_eq_true_eq] at h1 h2 ⊢
          exact lt_trans h1 h2

lemma charListLe_antisymm : ∀ {as bs : List Char},
    charListLe as bs = true → charListLe bs as = true → as = bs
  | [], [], _, _ => rfl
  | [], _ :: _, _, h2 => by simp [charListLe] at h2
  | _ :: _, [], h1, _ => by simp [charListLe] at h1
  | a :: as, b :: bs, h1, h2 => by
    by_cases hab : a = b
    · subst hab
      simp only [charListLe, if_pos rfl] at h1 h2
      rw [charListLe_antisymm h1 h2]
    · simp only [charListLe, if_neg hab, if_neg (Ne.symm hab),
        decide_eq_true_eq] at h1 h2
      exact absurd (lt_trans h1 h2) (lt_irrefl a)

lemma optStrLe_refl (v : Option String) : optStrLe v v = true := by
  cases v with
  | none => rfl
  | some s => exact charListLe_refl s.toList

lemma optStrLe_total (a b : Option String) : (optStrLe a b || optStrLe b a) = true := by
  cases a with
  | none => rfl
  | some s =>
    cases b with
    | none => rfl
    | some t => exact charListLe_total s.toList t.toList

lemma optStrLe_trans : ∀ {a b c : Option String},
    optStrLe a b = true → optStrLe b c = true → optStrLe a c = true
  | none, _, _, _, _ => rfl
  | some _, none, _, h1, _ => by simp [optStrLe] at h1
  | some _, some _, none, _, h2 => by simp [optStrLe] at h2
  | some _, some _, some _, h1, h2 => charListLe_trans h1 h2

lemma optStrLe_antisymm : ∀ {a b : Option String},
    optStrLe a b = true → optStrLe b a = true → a = b
  | none, none, _, _ => rfl
  | none, some _, _, h2 => by simp [optStrLe] at h2
  | some _, none, h1, _ => by simp [optStrLe] at h1
  | some x, some y, h1, h2 => by
    rw [String.ext (charListLe_antisymm h1 h2)]

lemma keyLe_refl_of_eq {a b : SortKey} (h : a = b) : keyLe a b = true := by
  subst h
  unfold keyLe
  rw [if_pos rfl]
  exact optStrLe_refl a.2

lemma keyLe_total (a b : SortKey) : (keyLe a b || keyLe b a) = true := by
  unfold keyLe
  by_cases h : a.1 = b.1
  · rw [if_pos h, if_pos h.symm]
    exact optStrLe_total a.2 b.2
  · rw [if_neg h, if_neg (fun e => h e.symm)]
    exact optStrLe_total a.1 b.1

lemma keyLe_trans {a b c : SortKey} (h1 : keyLe a b = true) (h2 : keyLe b c = true) :
    keyLe a c = true := by
  unfold keyLe at h1 h2 ⊢
  by_cases hab : a.1 = b.1
  · rw [if_pos hab] at h1
    by_cases hbc : b.1 = c.1
    · rw [if_pos hbc] at h2
      rw [if_pos (hab.trans hbc)]
      exact optStrLe_trans h1 h2
    · rw [if_neg hbc] at h2
      rw [if_neg (fun e => hbc (hab ▸ e))]
      rw [hab]
      exact h2
  · rw [if_neg hab] at h1
    by_cases hbc : b.1 = c.1
    · rw [if_pos hbc] at h2
      rw [if_neg (fun e => hab (e.trans hbc.symm))]
      rw [← hbc]
      exact h1
    · rw [if_neg hbc] at h2
      by_cases hac : a.1 = c.1
      · exfalso
        have h2' : optStrLe b.1 a.1 = true := by
          rw [hac]
          exact h2
        exact hab (optStrLe_antisymm h1 h2')
      · rw [if_neg hac]
        exact optStrLe_trans h1 h2

/-- Stability of the embedded sort as filter preservation: restricting the
sorted list to the elements of any one sort key reproduces their original
relative order. -/
lemma stable_sort_filter {α : Type} (f : α → SortKey) (l : List α) (k : SortKey) :
    (l.mergeSort (fun a b => keyLe (f a) (f b))).filter (fun x => decide (f x = k)) =
      l.filter (fun x => decide (f x = k)) := by
  have trans : ∀ (a b c : α), keyLe (f a) (f b) → keyLe (f b) (f c) → keyLe (f a) (f c) :=
    fun a b c h1 h2 => keyLe_trans h1 h2
  have total : ∀ (a b : α), (keyLe (f a) (f b) || keyLe (f b) (f a)) = true :=
    fun a b => keyLe_total (f a) (f b)
  have hpair : (l.filter (fun x => decide (f x = k))).Pairwise
      (fun a b => keyLe (f a) (f b) = true) := by
    apply List.pairwise_of_forall_mem_list
    intro a ha b hb
    have hfa : f a = k := by simpa using (List.mem_filter.mp ha).2
    have hfb : f b = k := by simpa using (List.mem_filter.mp hb).2
    exact keyLe_refl_of_eq (hfa.trans hfb.symm)
  have hc : List.Sublist (l.filter (fun x => decide (f x = k)))
      (l.mergeSort (fun a b => keyLe (f a) (f b))) :=
    List.sublist_mergeSort trans total hpair (List.filter_sublist l)
  have hsub2 : List.Sublist (l.filter (fun x => decide (f x = k)))
      ((l.mergeSort (fun a b => keyLe (f a) (f b))).filter (fun x => decide (f x = k))) := by
    have h2 := hc.filter (fun x => decide (f x = k))
    simpa only [List.filter_filter, Bool.and_self] using h2
  have hperm := (List.mergeSort_perm l (fun a b => keyLe (f a) (f b))).filter
    (fun x => decide (f x = k))
  exact (hsub2.eq_of_length hperm.length_eq.symm).symm

/-- C6: the `list-runs` sort of normalized records is stable (the records
of any one sort-key value keep their input order) and its comparison is
total, records missing `@scheduledStartTime` taking the null sentinel as
key, which sorts before every string. -/
theorem C6_sort_stable_and_total :
    (∀ (objs : List DescObj) (k : SortKey),
      (convert_described_objects objs (some sort_key_func)).filter
          (fun x => decide (sort_key_func x = k)) =
        (convert_described_objects objs none).filter
          (fun x => decide (sort_key_func x = k))) ∧
    (∀ a b : SortKey, keyLe a b = true ∨ keyLe b a = true) ∧
    (∀ x : Record, dictGet x "@scheduledStartTime" = none →
      (sort_key_func x).1 = none) ∧
    (∀ v : Option String, optStrLe none v = true) := by
  refine ⟨?_, ?_, ?_, ?_⟩
  · intro objs k
    exact stable_sort_filter sort_key_func (objs.map convertOneObject) k
  · intro a b
    simpa using keyLe_total a b
  · intro x h
    simp [sort_key_func, pyGet, h]
  · intro v
    rfl

theorem C6_sort_stable_and_total_witness :
    ((convert_described_objects [⟨"o-1", "n1", []⟩, ⟨"o-2", "n2", []⟩]
        (some sort_key_func)).filter
          (fun x => decide (sort_key_func x = (none, some "n1"))) =
      (convert_described_objects [⟨"o-1", "n1", []⟩, ⟨"o-2", "n2", []⟩] none).filter
          (fun x => decide (sort_key_func x = (none, some "n1")))) ∧
    (keyLe (none, none) (some "a", none) = true ∨
      keyLe (some "a", none) (none, none) = true) ∧
    (dictGet [("@id", some "o-1")] "@scheduledStartTime" = none ∧
      (sort_key_func [("@id", some "o-1")]).1 = none) ∧
    optStrLe none (some "zzz") = true :=
  ⟨C6_sort_stable_and_total.1 [⟨"o-1", "n1", []⟩, ⟨"o-2", "n2", []⟩] (none, some "n1"),
   C6_sort_stable_and_total.2.1 (none, none) (some "a", none),
   ⟨rfl, C6_sort_stable_and_total.2.2.1 [("@id", some "o-1")] rfl⟩,
   C6_sort_stable_and_total.2.2.2 (some "zzz")⟩

/-! ### Round trip of the definition translator -/

lemma to_api_field_entry_ref {f : ApiField} {r : String}
    (hs : f.stringValue = none) (hr : f.refValue = some r) :
    to_api_field f.key (SV.ref r) = f := by
  cases f
  simp_all [to_api_field]

lemma to_api_field_entry_str {f : ApiField} {s : String}
    (hs : f.stringValue = some s) (hr : f.refValue = none) :
    to_api_field f.key (SV.str s) = f := by
  cases f
  simp_all [to_api_field]

/-- On well-formed fields, entry conversion succeeds and re-encoding each
entry gives back exactly the original field. -/
lemma fieldsToEntries_ok {fields : List ApiField} (h : ∀ f ∈ fields, WFField f) :
    ∃ entries, fieldsToEntries fields = Except.ok entries ∧
      entries.map (fun e => to_api_field e.1 e.2) = fields ∧
      ∀ e ∈ entries, e.1 ≠ "id" ∧ e.1 ≠ "name" := by
  induction fields with
  | nil => exact ⟨[], rfl, rfl, by simp⟩
  | cons f fs ih =>
    obtain ⟨entries, he, hmap, hkeys⟩ := ih (fun g hg => h g (List.mem_cons_of_mem f hg))
    obtain ⟨hval, hid, hname⟩ := h f (List.mem_cons_self f fs)
    rcases hval with ⟨hs, hr⟩ | ⟨hs, hr⟩
    · obtain ⟨r, hr'⟩ := Option.ne_none_iff_exists'.mp hr
      refine ⟨(f.key, SV.ref r) :: entries, ?_, ?_, ?_⟩
      · simp only [fieldsToEntries, to_definition_entry, hr', he]
        rfl
      · simp only [List.map_cons, hmap, to_api_field_entry_ref hs hr']
      · intro e he'
        rcases List.mem_cons.mp he' with rfl | he'
        · exact ⟨hid, hname⟩
        · exact hkeys e he'
    · obtain ⟨s, hs'⟩ := Option.ne_none_iff_exists'.mp hs
      refine ⟨(f.key, SV.str s) :: entries, ?_, ?_, ?_⟩
      · simp only [fieldsToEntries, to_definition_entry, hr, hs', he]
        rfl
      · simp only [List.map_cons, hmap, to_api_field_entry_str hs' hr]
      · intro e he'
        rcases List.mem_cons.mp he' with rfl | he'
        · exact ⟨hid, hname⟩
        · exact hkeys e he'

lemma attrsToFields_addAttr (attrs : DefObject) (k : String) (v : SV) :
    List.Perm (attrsToFields (addAttr attrs k v))
      (attrsToFields attrs ++ [to_api_field k v]) := by
  induction attrs with
  | nil => simp [addAttr, attrsToFields, expandAttr]
  | cons p rest ih =>
    obtain ⟨k', dv⟩ := p
    by_cases h : k' = k
    · subst h
      cases dv with
      | single v0 =>
        simp only [addAttr, if_pos rfl, attrsToFields, expandAttr, List.map_cons,
          List.map_nil, List.cons_append, List.nil_append, List.singleton_append,
          List.append_assoc]
        exact List.Perm.cons _
          (@List.perm_append_comm _ [to_api_field k' v] (attrsToFields rest))
      | many vs =>
        simp only [addAttr, if_pos rfl, attrsToFields, expandAttr, List.map_append,
          List.map_cons, List.map_nil, List.append_assoc]
        exact List.Perm.append_left _ List.perm_append_comm
    · simp only [addAttr, if_neg h, attrsToFields, List.append_assoc]
      exact List.Perm.append_left _ ih

lemma attrsToFields_foldl (entries : List (String × SV)) :
    ∀ attrs : DefObject,
      List.Perm (attrsToFields (entries.foldl (fun a e => addAttr a e.1 e.2) attrs))
        (attrsToFields attrs ++ entries.map (fun e => to_api_field e.1 e.2)) := by
  induction entries with
  | nil => intro attrs; simp
  | cons e es ih =>
    intro attrs
    rw [List.foldl_cons]
    refine (ih _).trans ?_
    refine ((attrsToFields_addAttr attrs e.1 e.2).append_right _).trans ?_
    rw [List.append_assoc]
    exact List.Perm.refl _

lemma addAttr_cons_ne {k0 k : String} {dv0 : DefValue} {attrs : DefObject} {v : SV}
    (h : k0 ≠ k) :
    addAttr ((k0, dv0) :: attrs) k v = (k0, dv0) :: addAttr attrs k v := by
  simp [addAttr, h]

lemma foldl_addAttr_cons_ne {k0 : String} {dv0 : DefValue}
    {entries : List (String × SV)} (hk : ∀ e ∈ entries, e.1 ≠ k0) :
    ∀ attrs : DefObject,
      entries.foldl (fun a e => addAttr a e.1 e.2) ((k0, dv0) :: attrs) =
        (k0, dv0) :: entries.foldl (fun a e => addAttr a e.1 e.2) attrs := by
  induction entries with
  | nil => intro attrs; rfl
  | cons e es ih =>
    intro attrs
    rw [List.foldl_cons, List.foldl_cons,
      addAttr_cons_ne (Ne.symm (hk e (List.mem_cons_self e es))),
      ih (fun e' he' => hk e' (List.mem_cons_of_mem e he'))]

/-- One well-formed API object round-trips: its definition object converts
back to the same id and name with a permutation of the original fields. -/
lemma object_round_trip {obj : ApiObject} (h : ∀ f ∈ obj.fields, WFField f) :
    ∃ d, objectToDefinition obj = Except.ok d ∧
      ∃ o2, definitionObjectToApi d = Except.ok o2 ∧
        o2.id = obj.id ∧ o2.name = obj.name ∧ List.Perm o2.fields obj.fields := by
  obtain ⟨entries, he, hmap, hkeys⟩ := fieldsToEntries_ok h
  have hobj : objectToDefinition obj = Except.ok
      (("id", DefValue.single (SV.str obj.id)) ::
        ("name", DefValue.single (SV.str obj.name)) ::
        entries.foldl (fun a e => addAttr a e.1 e.2) []) := by
    simp only [objectToDefinition, he]
    rw [show (Except.ok entries >>= fun entries => Except.ok
        (entries.foldl (fun attrs e => addAttr attrs e.1 e.2)
          [("id", DefValue.single (SV.str obj.id)),
           ("name", DefValue.single (SV.str obj.name))]) :
          Except String DefObject) =
      Except.ok (entries.foldl (fun attrs e => addAttr attrs e.1 e.2)
          [("id", DefValue.single (SV.str obj.id)),
           ("name", DefValue.single (SV.str obj.name))]) from rfl]
    rw [foldl_addAttr_cons_ne (fun e he' => (hkeys e he').1),
      foldl_addAttr_cons_ne (fun e he' => (hkeys e he').2)]
  have hapi : definitionObjectToApi
      (("id", DefValue.single (SV.str obj.id)) ::
        ("name", DefValue.single (SV.str obj.name)) ::
        entries.foldl (fun a e => addAttr a e.1 e.2) []) =
      Except.ok ⟨obj.id, obj.name,
        attrsToFields (entries.foldl (fun a e => addAttr a e.1 e.2) [])⟩ := rfl
  refine ⟨_, hobj, _, hapi, rfl, rfl, ?_⟩
  have hperm := attrsToFields_foldl entries []
  rw [hmap] at hperm
  simpa [attrsToFields] using hperm

/-- Round trip over a whole object list. -/
lemma objects_round_trip :
    ∀ (objs : List ApiObject), (∀ o ∈ objs, ∀ f ∈ o.fields, WFField f) →
      ∃ ds, objectsToDefinitions objs = Except.ok ds ∧
        ∃ objs2, definitionObjectsToApi ds = Except.ok objs2 ∧
          List.Forall₂ (fun o2 o => o2.id = o.id ∧ o2.name = o.name ∧
            List.Perm o2.fields o.fields) objs2 objs := by
  intro objs
  induction objs with
  | nil => exact fun _ => ⟨[], rfl, [], rfl, List.Forall₂.nil⟩
  | cons o os ih =>
    intro h
    obtain ⟨ds, hds, objs2, hos, hrel⟩ :=
      ih (fun o' ho' => h o' (List.mem_cons_of_mem o ho'))
    obtain ⟨d, hd, o2, ho2, hid, hname, hperm⟩ :=
      object_round_trip (h o (List.mem_cons_self o os))
    refine ⟨d :: ds, ?_, o2 :: objs2, ?_, List.Forall₂.cons ⟨hid, hname, hperm⟩ hrel⟩
    · simp only [objectsToDefinitions, hd, hds]
      rfl
    · simp only [definitionObjectsToApi, ho2, hos]
      rfl

/-- C1: every well-formed API object sequence (each field carrying exactly
one of `stringValue`/`refValue`, keys avoiding the reserved `id`/`name`)
round-trips through `api_to_definition` then `definition_to_api`: same
object order, same ids and names, and per object the same fields up to
reordering — nothing dropped, nothing default-filled. -/
theorem C1_definition_round_trip :
    ∀ (objs : List ApiObject), (∀ o ∈ objs, ∀ f ∈ o.fields, WFField f) →
      ∃ doc, api_to_definition objs = Except.ok doc ∧
        ∃ objs2, definition_to_api doc = Except.ok objs2 ∧
          List.Forall₂ (fun o2 o => o2.id = o.id ∧ o2.name = o.name ∧
            List.Perm o2.fields o.fields) objs2 objs := by
  intro objs h
  obtain ⟨ds, hds, objs2, hos, hrel⟩ := objects_round_trip objs h
  refine ⟨⟨ds⟩, ?_, objs2, hos, hrel⟩
  simp only [api_to_definition, hds]
  rfl

theorem C1_definition_round_trip_witness :
    ∃ doc, api_to_definition ([⟨"o1", "Obj1",
        [⟨"dep", some "a", none⟩, ⟨"dep", none, some "o2"⟩,
         ⟨"pipelineType", some "Copy", none⟩]⟩] : List ApiObject) = Except.ok doc ∧
      ∃ objs2, definition_to_api doc = Except.ok objs2 ∧
        List.Forall₂ (fun o2 o => o2.id = o.id ∧ o2.name = o.name ∧
            List.Perm o2.fields o.fields) objs2
          ([⟨"o1", "Obj1", [⟨"dep", some "a", none⟩, ⟨"dep", none, some "o2"⟩,
            ⟨"pipelineType", some "Copy", none⟩]⟩] : List ApiObject) :=
  C1_definition_round_trip _ (by decide)

end Datapipeline
